import Mathlib

/-!
Verification development for the structured configuration source editor
(`packages/cypress/src/utils/config/change-config-transformer.ts`).

The TypeScript syntax-tree engine (parser, printer, node factory) is an
external dependency of the program (spec §2, item 4); documents are therefore
embedded as their parsed syntax trees, and "returns source text" is read as
"returns the printed form of the returned tree".  The expression grammar below
covers exactly the node shapes the transformer inspects or constructs: numeric,
string and boolean literals, identifiers, object-literal expressions (a list of
property assignments, each an identifier name with an initializer expression)
and call expressions (an identifier callee with an argument list).

JavaScript runtime behaviour that the code relies on is embedded explicitly:
a `Map` is an insertion-ordered association list whose `set` keeps the position
of an existing key; reading `.text` off a node that has no such field yields
`undefined` (the `DynVal.undef` value); operations that would throw a runtime
`TypeError` (iterating `.properties` of a non-object node, indexing `.arguments`
of a non-call node, indexing past the end of `devServerPositionalArgument`,
`createStringLiteral` applied to a non-string, and a property assignment built
from `undefined`) are embedded as `Except.error` outcomes, since the whole
operation aborts with no output in those cases.

`isBooleanLiteral` is imported from `transformer.helper`, which is not part of
the sources; it is modelled as the test for the `TrueKeyword` / `FalseKeyword`
node kinds, which is what its uses in `fromLiteralToPrimitive` re-check.
-/

/-- Primitive configuration values (the `PrimitiveValue` type of the source:
`string | number | boolean`).  Numeric literals are modelled as integers; the
claims only exercise integral numerals, for which `Number(text)` and
`createNumericLiteral` round-trip exactly. -/
inductive Prim where
  | num (n : Int)
  | str (s : String)
  | bool (b : Bool)
deriving BEq, DecidableEq, Repr

/-- Syntax-tree expressions, restricted to the node shapes the transformer
touches.  `obj` is an object-literal expression whose properties are property
assignments (identifier name, initializer); `call` is a call expression with an
identifier callee; `ident` is a bare identifier reference. -/
inductive Expr where
  | num (n : Int)
  | str (s : String)
  | tt
  | ff
  | ident (nm : String)
  | obj (props : List (String × Expr))
  | call (callee : String) (args : List Expr)
deriving Repr

/-- Top-level statements of a source document: the export assignment
(`export default e`) or any other statement (imports, declarations, comments),
which the transformer leaves untouched. -/
inductive Stmt where
  | exportDefault (e : Expr)
  | other (text : String)
deriving Repr

/-- A parsed source document: its list of top-level statements. -/
structure SourceFile where
  statements : List Stmt
deriving Repr

def Stmt.isExportAssignment : Stmt → Bool
  | .exportDefault _ => true
  | .other _ => false

/-- Runtime failures of the transformation.  The source has no named error
kinds; these constructors name the concrete JavaScript crash sites. -/
inductive JsError where
  | argumentsOfNonCall
  | propertiesOfNonObject
  | positionalNameOutOfRange
  | stringLiteralOfNonString
  | undefinedPropertyAssignment
deriving BEq, DecidableEq, Repr

/-- Runtime values held in the transformer's metadata map:
`PrimitiveValue | Map<string, ...>` in the source, plus the two shapes the
untyped runtime lets in: `undef` (JavaScript `undefined`, produced by reading
`.text` off a node that lacks it) and `vobj` (a plain object, as supplied by
callers in `newConfig`).  `vmap` is a JavaScript `Map` in insertion order. -/
inductive DynVal where
  | prim (p : Prim)
  | undef
  | vmap (entries : List (String × DynVal))
  | vobj (entries : List (String × DynVal))
deriving Repr

/-- The metadata map (`configMetadataMap` and its child maps): a JavaScript
`Map` embedded as an insertion-ordered association list with unique keys. -/
def MMap := List (String × DynVal)

/-- `Map.prototype.get`. -/
def mmGet : MMap → String → Option DynVal
  | [], _ => none
  | (k, v) :: rest, key => if k == key then some v else mmGet rest key

/-- `Map.prototype.set`: replaces the value of an existing key in place
(keeping its position) and appends a new key at the end. -/
def mmSet : MMap → String → DynVal → MMap
  | [], key, v => [(key, v)]
  | (k, w) :: rest, key, v =>
      if k == key then (key, v) :: rest else (k, w) :: mmSet rest key v

/-- The fixed positional field names of the reserved `devServer` key
(`devServerPositionalArgument` in the source). -/
def devServerPositionalArgument : List String := ["tsConfig", "compiler"]

/-- `fromLiteralToPrimitive`: numeric literals via `Number(text)`, boolean
keywords via `isBooleanLiteral` and the kind test, and every other node via the
unchecked cast `(nodeInitializer as StringLiteral).text` — identifiers carry a
`.text` field and so are silently read as strings, while object-literal and
call nodes have no `.text` and yield `undefined`. -/
def fromLiteralToPrimitive : Expr → DynVal
  | .num n => .prim (.num n)
  | .tt => .prim (.bool true)
  | .ff => .prim (.bool false)
  | .str s => .prim (.str s)
  | .ident s => .prim (.str s)
  | .obj _ => .undef
  | .call _ _ => .undef

mutual

/-- `buildMetadataFromConfig`: walks the property assignments of an
object-literal expression in source order, threading the metadata map, the
removal-path list and the dotted path of the enclosing property. -/
def buildMetadataFromConfig :
    List (String × Expr) → MMap → List String → String → Except JsError MMap
  | [], m, _, _ => .ok m
  | (nm, init) :: rest, m, rem, pfx => do
      let m' ← buildMetadataProp nm init m rem pfx
      buildMetadataFromConfig rest m' rem pfx

/-- One iteration of the `buildMetadataFromConfig` loop, for the property
assignment `nm: init`.  The `devServer`-with-call-initializer case first
rewrites the assignment into an object literal pairing each positional argument
with `devServerPositionalArgument[index]` (more arguments than names indexes
past the list and crashes building the identifier), then falls into the common
flow: a path hit in the removal list is skipped; an existing `Map` at the key
merges by recursing into the initializer's properties (crashing if it is not an
object literal); any other existing value is left alone; otherwise an
object-literal initializer becomes a fresh child map and anything else is
decoded by `fromLiteralToPrimitive`. -/
def buildMetadataProp (nm : String) (init : Expr) (m : MMap) (rem : List String)
    (pfx : String) : Except JsError MMap :=
  let path := if pfx == "" then nm else pfx ++ "." ++ nm
  if rem.contains path then .ok m
  else
    match init with
    | .call c args =>
        if nm == "devServer" then
          if 2 < args.length then .error .positionalNameOutOfRange
          else
            match mmGet m nm with
            | some (.vmap child) => do
                let c' ← buildMetadataDevServerArgs devServerPositionalArgument
                  args child rem path
                .ok (mmSet m nm (.vmap c'))
            | some _ => .ok m
            | none => do
                let c' ← buildMetadataDevServerArgs devServerPositionalArgument
                  args [] rem path
                .ok (mmSet m nm (.vmap c'))
        else
          match mmGet m nm with
          | some (.vmap _) => .error .propertiesOfNonObject
          | some _ => .ok m
          | none => .ok (mmSet m nm (fromLiteralToPrimitive (.call c args)))
    | .obj ps =>
        match mmGet m nm with
        | some (.vmap child) => do
            let c ← buildMetadataFromConfig ps child rem path
            .ok (mmSet m nm (.vmap c))
        | some _ => .ok m
        | none => do
            let c ← buildMetadataFromConfig ps [] rem path
            .ok (mmSet m nm (.vmap c))
    | .num n =>
        match mmGet m nm with
        | some (.vmap _) => .error .propertiesOfNonObject
        | some _ => .ok m
        | none => .ok (mmSet m nm (fromLiteralToPrimitive (.num n)))
    | .str s =>
        match mmGet m nm with
        | some (.vmap _) => .error .propertiesOfNonObject
        | some _ => .ok m
        | none => .ok (mmSet m nm (fromLiteralToPrimitive (.str s)))
    | .tt =>
        match mmGet m nm with
        | some (.vmap _) => .error .propertiesOfNonObject
        | some _ => .ok m
        | none => .ok (mmSet m nm (fromLiteralToPrimitive .tt))
    | .ff =>
        match mmGet m nm with
        | some (.vmap _) => .error .propertiesOfNonObject
        | some _ => .ok m
        | none => .ok (mmSet m nm (fromLiteralToPrimitive .ff))
    | .ident s =>
        match mmGet m nm with
        | some (.vmap _) => .error .propertiesOfNonObject
        | some _ => .ok m
        | none => .ok (mmSet m nm (fromLiteralToPrimitive (.ident s)))

/-- The walk over the object literal produced by the `devServer` rewrite: each
positional argument is processed as a property assignment named by the
positional name list at the same index. -/
def buildMetadataDevServerArgs :
    List String → List Expr → MMap → List String → String → Except JsError MMap
  | _, [], m, _, _ => .ok m
  | [], _ :: _, _, _, _ => .error .positionalNameOutOfRange
  | n :: ns, a :: as, m, rem, pfx => do
      let m' ← buildMetadataProp n a m rem pfx
      buildMetadataDevServerArgs ns as m' rem pfx

end

/-- The argument list of the `componentDevServer` call built for a `Map` at the
`devServer` key: `Array.from(value.values()).map(v => createStringLiteral(v))`,
in the map's insertion order; a non-string value crashes the string-literal
factory. -/
def devServerCallArgs : List (String × DynVal) → Except JsError (List Expr)
  | [] => .ok []
  | (_, .prim (.str s)) :: rest => do
      let args ← devServerCallArgs rest
      .ok (.str s :: args)
  | _ :: _ => .error .stringLiteralOfNonString

mutual

/-- `createPropertyAssignment`: a `Map` at the key `devServer` becomes a call
to the well-known `componentDevServer` identifier with one string-literal
argument per map entry; numbers, strings and booleans become the corresponding
literal nodes; any other `Map` or plain object becomes an object-literal
expression over its entries in order; `undefined` matches no `typeof` case, so
the function returns no property assignment and the operation cannot produce a
well-formed node. -/
def createPropertyAssignment (key : String) (v : DynVal) :
    Except JsError (String × Expr) :=
  match v with
  | .vmap entries =>
      if key == "devServer" then do
        let args ← devServerCallArgs entries
        .ok (key, .call "componentDevServer" args)
      else do
        let ps ← createPropertyAssignments entries
        .ok (key, .obj ps)
  | .vobj entries => do
      let ps ← createPropertyAssignments entries
      .ok (key, .obj ps)
  | .prim (.num n) => .ok (key, .num n)
  | .prim (.str s) => .ok (key, .str s)
  | .prim (.bool b) => .ok (key, if b then .tt else .ff)
  | .undef => .error .undefinedPropertyAssignment

/-- Mapping `createPropertyAssignment` over the entries of a map or object, as
done both for `newConfig` and for the final metadata map. -/
def createPropertyAssignments :
    List (String × DynVal) → Except JsError (List (String × Expr))
  | [] => .ok []
  | (k, v) :: rest => do
      let p ← createPropertyAssignment k v
      let ps ← createPropertyAssignments rest
      .ok (p :: ps)

end

/-- The two operation modes of `changePropertiesTransformer`. -/
inductive ChangeType where
  | upsertChange (overwrite : Bool)
  | deleteChange

/-- The statement visitor of `changePropertiesTransformer`: statements other
than export assignments are left unchanged; an export assignment's expression
is cast to a call expression (a non-call crashes reading `.arguments[0]`); in
delete mode and non-overwrite upsert mode the first argument is decoded into
the threaded metadata map (crashing on `.properties` if it is not an object
literal, including when there is no argument at all); finally the call's
argument list is replaced by a single object literal built from the metadata
map's entries.  The map is threaded on to later statements, mirroring the
shared `configMetadataMap` during one traversal. -/
def transformStmts (ch : ChangeType) (rem : List String) :
    List Stmt → MMap → Except JsError (List Stmt)
  | [], _ => .ok []
  | .other t :: rest, m => do
      let r ← transformStmts ch rem rest m
      .ok (.other t :: r)
  | .exportDefault e :: rest, m =>
      match e with
      | .call callee args => do
          let m' ←
            match ch with
            | .deleteChange | .upsertChange false =>
                match args with
                | .obj ps :: _ => buildMetadataFromConfig ps m rem ""
                | _ :: _ => .error .propertiesOfNonObject
                | [] => .error .propertiesOfNonObject
            | .upsertChange true => .ok m
          let newProps ← createPropertyAssignments m'
          let r ← transformStmts ch rem rest m'
          .ok (.exportDefault (.call callee [.obj newProps]) :: r)
      | _ => .error .argumentsOfNonCall

/-- The static state of `CypressConfigTransformer`: the shared metadata map and
removal-path list.  Both entry points reassign both fields before any other
work; the state type makes that reset explicit so that independence from prior
calls can be stated. -/
structure TransformerState where
  configMetadataMap : MMap
  propertiesToRemove : List String

/-- `CypressConfigTransformer.removeProperties`: resets the static fields,
installs the removal paths, and runs the delete transformer over the parsed
document. -/
def removeProperties (st : TransformerState) (existingConfig : SourceFile)
    (toRemove : List String) : Except JsError SourceFile :=
  let st2 : TransformerState :=
    { st with configMetadataMap := [], propertiesToRemove := toRemove }
  do
    let stmts ← transformStmts .deleteChange st2.propertiesToRemove
      existingConfig.statements st2.configMetadataMap
    .ok (SourceFile.mk stmts)

/-- `CypressConfigTransformer.addOrUpdateProperties`: resets the static fields,
builds the new-config object literal via `createPropertyAssignment`, seeds the
metadata map from it, and runs the upsert transformer over the parsed
document. -/
def addOrUpdateProperties (st : TransformerState) (existingConfig : SourceFile)
    (newConfig : List (String × DynVal)) (overwrite : Bool) :
    Except JsError SourceFile :=
  let st2 : TransformerState :=
    { st with configMetadataMap := [], propertiesToRemove := [] }
  do
    let newProps ← createPropertyAssignments newConfig
    let seeded ← buildMetadataFromConfig newProps st2.configMetadataMap
      st2.propertiesToRemove ""
    let stmts ← transformStmts (.upsertChange overwrite) st2.propertiesToRemove
      existingConfig.statements seeded
    .ok (SourceFile.mk stmts)

/-- The recognized export of a document: the first default-exported call
expression whose first argument is an object literal (spec §3,
`RecognizedExport`); returns that object literal's property list. -/
def recognizedExportProps : List Stmt → Option (List (String × Expr))
  | [] => none
  | .exportDefault (.call _ (.obj ps :: _)) :: _ => some ps
  | _ :: rest => recognizedExportProps rest

/-- The decoded configuration of a document: the metadata tree obtained by
running the program's own decoder (`buildMetadataFromConfig` with no removal
paths and a fresh map) on the recognized export's object literal. -/
def decodedConfig (sf : SourceFile) : Option MMap :=
  match recognizedExportProps sf.statements with
  | none => none
  | some ps =>
      match buildMetadataFromConfig ps [] [] "" with
      | .ok m => some m
      | .error _ => none

/-- Every key of `ys` is present in `xs`. -/
def keysIncluded (xs ys : MMap) : Bool :=
  ys.all (fun kv => (mmGet xs kv.1).isSome)

mutual

/-- Record equality of decoded configuration values: primitives compare by
value, maps and plain objects compare as finite mappings (same key set, equal
values), ignoring entry order.  Fuel-indexed (every recursive step consumes
fuel) so that the comparison is a structural recursion on the fuel; every claim
below uses a fuel far above the size of the trees compared. -/
def dvalEquiv : Nat → DynVal → DynVal → Bool
  | 0, _, _ => false
  | _ + 1, .prim p, .prim q => p == q
  | _ + 1, .undef, .undef => true
  | f + 1, .vmap xs, .vmap ys => mmapSub f xs ys && keysIncluded xs ys
  | f + 1, .vobj xs, .vobj ys => mmapSub f xs ys && keysIncluded xs ys
  | _ + 1, _, _ => false

/-- Every entry of `xs` is present in `ys` with an equivalent value. -/
def mmapSub : Nat → MMap → MMap → Bool
  | _, [], _ => true
  | 0, _ :: _, _ => false
  | f + 1, (k, v) :: rest, ys =>
      (match mmGet ys k with
       | some w => dvalEquiv f v w
       | none => false) &&
      mmapSub f rest ys

end

/-- Record equality of two metadata maps: every key of one is present in the
other with an equivalent value, and conversely. -/
def mmapEquiv (f : Nat) (xs ys : MMap) : Bool :=
  mmapSub f xs ys && keysIncluded xs ys

/-- A fresh transformer state, as at class-load time. -/
def st0 : TransformerState := TransformerState.mk [] []

/-- The property list of the object literal `{a: 1, b: {x: 1, y: 2}}` used by
the spec's worked examples. -/
def psAB : List (String × Expr) :=
  [("a", .num 1), ("b", .obj [("x", .num 1), ("y", .num 2)])]

/-- A document whose recognized export's configuration is
`{a: 1, b: {x: 1, y: 2}}`. -/
def docAB : SourceFile :=
  SourceFile.mk [.exportDefault (.call "defineConfig" [.obj psAB])]

/-- The new configuration `{b: {x: 9}}` of the spec's worked examples, as the
caller's plain nested object. -/
def cfgB9 : List (String × DynVal) :=
  [("b", .vobj [("x", .prim (.num 9))])]

theorem except_bind_ok {α β : Type} {x : Except JsError α} {f : α → Except JsError β}
    {b : β} : (x >>= f) = Except.ok b ↔ ∃ a, x = Except.ok a ∧ f a = Except.ok b := by
  cases x <;> simp [Bind.bind, Except.bind]

theorem transformStmts_exportFree (ch : ChangeType) (rem : List String) :
    ∀ (stmts : List Stmt) (m : MMap),
    (∀ s ∈ stmts, s.isExportAssignment = false) →
    transformStmts ch rem stmts m = .ok stmts := by
  intro stmts
  induction stmts with
  | nil => intro m _; rfl
  | cons s rest ih =>
      intro m h
      rw [List.forall_mem_cons] at h
      obtain ⟨hs, hrest⟩ := h
      cases s with
      | exportDefault e => simp [Stmt.isExportAssignment] at hs
      | other t =>
          show (transformStmts ch rem rest m >>= fun r =>
            Except.ok (Stmt.other t :: r)) = Except.ok (Stmt.other t :: rest)
          rw [ih m hrest]
          rfl

theorem transformStmts_append_exportFree (ch : ChangeType) (rem : List String) :
    ∀ (pre rest : List Stmt) (m : MMap),
    (∀ s ∈ pre, s.isExportAssignment = false) →
    transformStmts ch rem (pre ++ rest) m =
      (transformStmts ch rem rest m).map (fun l => pre ++ l) := by
  intro pre
  induction pre with
  | nil =>
      intro rest m _
      cases h : transformStmts ch rem rest m <;> simp [Except.map, h]
  | cons s pre' ih =>
      intro rest m h
      rw [List.forall_mem_cons] at h
      obtain ⟨hs, hpre⟩ := h
      cases s with
      | exportDefault e => simp [Stmt.isExportAssignment] at hs
      | other t =>
          show (transformStmts ch rem (pre' ++ rest) m >>= fun r =>
            Except.ok (Stmt.other t :: r)) =
            (transformStmts ch rem rest m).map (fun l => Stmt.other t :: pre' ++ l)
          rw [ih rest m hpre]
          cases h : transformStmts ch rem rest m <;>
            simp [Except.map, Bind.bind, Except.bind, h]

theorem recognizedExportProps_append (pre rest : List Stmt)
    (h : ∀ s ∈ pre, s.isExportAssignment = false) :
    recognizedExportProps (pre ++ rest) = recognizedExportProps rest := by
  induction pre with
  | nil => rfl
  | cons s pre' ih =>
      rw [List.forall_mem_cons] at h
      obtain ⟨hs, hpre⟩ := h
      cases s with
      | exportDefault e => simp [Stmt.isExportAssignment] at hs
      | other t => exact ih hpre

theorem transformStmts_overwrite_stable (rem : List String) (seeded : MMap) :
    ∀ (stmts out : List Stmt),
    transformStmts (.upsertChange true) rem stmts seeded = .ok out →
    transformStmts (.upsertChange true) rem out seeded = .ok out := by
  intro stmts
  induction stmts with
  | nil =>
      intro out h
      obtain rfl : out = [] := by
        have := h
        simp [transformStmts] at this
        exact this
      rfl
  | cons s rest ih =>
      intro out h
      cases s with
      | other t =>
          have h' : (transformStmts (.upsertChange true) rem rest seeded >>= fun r =>
              .ok (.other t :: r)) = .ok out := h
          rw [except_bind_ok] at h'
          obtain ⟨r, hr, hout⟩ := h'
          have : Stmt.other t :: r = out := by
            simpa using hout
          subst this
          have hstep : transformStmts (.upsertChange true) rem (.other t :: r) seeded =
              (transformStmts (.upsertChange true) rem r seeded >>= fun r' =>
                .ok (.other t :: r')) := rfl
          rw [hstep, ih r hr]
          rfl
      | exportDefault e =>
          cases e with
          | call callee args =>
              have h' : (createPropertyAssignments seeded >>= fun newProps =>
                  transformStmts (.upsertChange true) rem rest seeded >>= fun r =>
                  .ok (.exportDefault (.call callee [.obj newProps]) :: r)) = .ok out := h
              rw [except_bind_ok] at h'
              obtain ⟨P, hP, h''⟩ := h'
              rw [except_bind_ok] at h''
              obtain ⟨r, hr, hout⟩ := h''
              have : Stmt.exportDefault (.call callee [.obj P]) :: r = out := by
                simpa using hout
              subst this
              have hstep : transformStmts (.upsertChange true) rem
                  (.exportDefault (.call callee [.obj P]) :: r) seeded =
                  (createPropertyAssignments seeded >>= fun newProps =>
                    transformStmts (.upsertChange true) rem r seeded >>= fun r' =>
                    .ok (.exportDefault (.call callee [.obj newProps]) :: r')) := rfl
              rw [hstep, hP]
              show (transformStmts (.upsertChange true) rem r seeded >>= fun r' =>
                Except.ok (Stmt.exportDefault (.call callee [.obj P]) :: r')) =
                Except.ok (Stmt.exportDefault (.call callee [.obj P]) :: r)
              rw [ih r hr]
              rfl
          | num n => exact absurd h (by simp [transformStmts])
          | str s => exact absurd h (by simp [transformStmts])
          | tt => exact absurd h (by simp [transformStmts])
          | ff => exact absurd h (by simp [transformStmts])
          | ident nm => exact absurd h (by simp [transformStmts])
          | obj ps => exact absurd h (by simp [transformStmts])

/-- Claim C10 (confirmed): although the transformer keeps its working state in
static class fields shared across calls, both entry points reassign those
fields to fresh values at entry before any processing, so the result of either
entry point is a deterministic function of its arguments alone: two runs with
equal arguments but arbitrary different prior static state return equal
results. -/
theorem c10_theorem (st1 st2 : TransformerState) (sf : SourceFile)
    (cfg : List (String × DynVal)) (ow : Bool) (toRemove : List String) :
    addOrUpdateProperties st1 sf cfg ow = addOrUpdateProperties st2 sf cfg ow ∧
    removeProperties st1 sf toRemove = removeProperties st2 sf toRemove :=
  ⟨rfl, rfl⟩

/-- Claim C7, counterexample: a property value that is not a supported shape —
here the bare identifier `bar` as the initializer of `foo` — does not make
decoding fail with any error; `fromLiteralToPrimitive` silently coerces it to
the string primitive `"bar"`, and a full `removeProperties` run on such a
document succeeds, rewriting `foo: bar` into the string literal
`foo: 'bar'`. -/
theorem c7_counterexample :
    fromLiteralToPrimitive (.ident "bar") = .prim (.str "bar") ∧
    removeProperties st0
      (SourceFile.mk [.exportDefault (.call "defineConfig"
        [.obj [("foo", .ident "bar")]])]) [] =
      .ok (SourceFile.mk [.exportDefault (.call "defineConfig"
        [.obj [("foo", .str "bar")]])]) :=
  ⟨rfl, rfl⟩

/-- Claim C7 as amended: decoding never raises an `UnsupportedLiteralKind`
error — no such error exists in the code.  A value node that is not a numeric
or boolean literal is read as if it were a string literal through the unchecked
cast `(node as StringLiteral).text`: an identifier initializer is silently
coerced to a string primitive carrying the identifier's text, while a node with
no `.text` field (a call at a non-reserved key, or an object literal) decodes
to the JavaScript `undefined` value rather than an explicit error. -/
theorem c7_theorem :
    (∀ s : String, fromLiteralToPrimitive (.ident s) = .prim (.str s)) ∧
    (∀ (c : String) (args : List Expr),
      fromLiteralToPrimitive (.call c args) = .undef) ∧
    (∀ ps : List (String × Expr), fromLiteralToPrimitive (.obj ps) = .undef) :=
  ⟨fun _ => rfl, fun _ _ => rfl, fun _ => rfl⟩

/-- Claim C8, counterexample: encoding a `devServer` mapping whose fields were
supplied in the order `compiler` before `tsConfig` emits the call's positional
arguments in that same insertion order — `componentDevServer('babel',
'tsconfig.json')` — and not in the fixed field order `tsConfig` before
`compiler`, contradicting the claim that the fixed order is used regardless of
the order in which the fields were supplied. -/
theorem c8_counterexample :
    createPropertyAssignment "devServer"
      (.vmap [("compiler", .prim (.str "babel")),
        ("tsConfig", .prim (.str "tsconfig.json"))]) =
      .ok ("devServer", .call "componentDevServer"
        [.str "babel", .str "tsconfig.json"]) ∧
    Expr.call "componentDevServer" [.str "babel", .str "tsconfig.json"] ≠
      Expr.call "componentDevServer" [.str "tsconfig.json", .str "babel"] := by
  refine ⟨rfl, ?_⟩
  intro h
  injection h with h1 h2
  injection h2 with h3 h4
  injection h3 with h5
  exact absurd h5 (by decide)

/-- Claim C8 as amended: encoding a `Map` at the reserved `devServer` key
produces a call expression on the fixed callee `componentDevServer` with one
positional string-literal argument per field present in the mapping, in the
mapping's insertion order (which coincides with the fixed field order only when
the mapping was built in that order, as happens when decoding the positional
call form); absent fields are simply not emitted. -/
theorem c8_theorem (svals : List (String × String)) :
    createPropertyAssignment "devServer"
      (.vmap (svals.map (fun kv => (kv.1, DynVal.prim (.str kv.2))))) =
      .ok ("devServer",
        .call "componentDevServer" (svals.map (fun kv => Expr.str kv.2))) := by
  have hargs : ∀ l : List (String × String),
      devServerCallArgs (l.map (fun kv => (kv.1, DynVal.prim (.str kv.2)))) =
        .ok (l.map (fun kv => Expr.str kv.2)) := by
    intro l
    induction l with
    | nil => rfl
    | cons kv r ih =>
        show (devServerCallArgs (r.map (fun kv => (kv.1, DynVal.prim (.str kv.2)))) >>=
          fun args => Except.ok (Expr.str kv.2 :: args)) = _
        rw [ih]
        rfl
  have hred : createPropertyAssignment "devServer"
      (.vmap (svals.map (fun kv => (kv.1, DynVal.prim (.str kv.2))))) =
      (devServerCallArgs (svals.map (fun kv => (kv.1, DynVal.prim (.str kv.2)))) >>=
        fun args => Except.ok ("devServer", Expr.call "componentDevServer" args)) := rfl
  rw [hred, hargs]
  rfl

/-- Claim C4 (confirmed): in any document position (any callee name `c` for the
written call and any enclosing path), a `devServer` property written as a call
with the two positional string arguments `("tsconfig.json", "babel")` decodes
to the insertion-ordered record `{tsConfig: "tsconfig.json", compiler:
"babel"}`; re-encoding that record unchanged reproduces a call with the same
two positional arguments in the same order, and a full `removeProperties` run
with no removal paths maps such a document to itself (decode then encode is the
identity on the reserved key's call form). -/
theorem c4_theorem (c pfx : String) :
    buildMetadataFromConfig
      [("devServer", .call c [.str "tsconfig.json", .str "babel"])] [] [] pfx =
      .ok [("devServer", .vmap [("tsConfig", .prim (.str "tsconfig.json")),
        ("compiler", .prim (.str "babel"))])] ∧
    createPropertyAssignment "devServer"
      (.vmap [("tsConfig", .prim (.str "tsconfig.json")),
        ("compiler", .prim (.str "babel"))]) =
      .ok ("devServer", .call "componentDevServer"
        [.str "tsconfig.json", .str "babel"]) ∧
    removeProperties st0
      (SourceFile.mk [.exportDefault (.call "defineConfig"
        [.obj [("devServer",
          .call "componentDevServer" [.str "tsconfig.json", .str "babel"])]])]) [] =
      .ok (SourceFile.mk [.exportDefault (.call "defineConfig"
        [.obj [("devServer",
          .call "componentDevServer" [.str "tsconfig.json", .str "babel"])]])]) :=
  ⟨rfl, rfl, rfl⟩

/-- Claim C2, counterexample: a document with no default-exported call at all
(here a single non-export statement) does not make either entry point fail:
both succeed and return the document unchanged, so there is no fatal
`NoRecognizedExport` outcome and output text is produced. -/
theorem c2_counterexample :
    removeProperties st0 (SourceFile.mk [.other "leading statements"])
      ["baseUrl"] = .ok (SourceFile.mk [.other "leading statements"]) ∧
    addOrUpdateProperties st0 (SourceFile.mk [.other "leading statements"])
      cfgB9 true = .ok (SourceFile.mk [.other "leading statements"]) :=
  ⟨rfl, rfl⟩

/-- Claim C1, counterexample: on the document whose recognized export's decoded
configuration is `{a: 1, b: {x: 1, y: 2}}` (first conjunct), upserting
`{b: {x: 9}}` with `overwrite=true` returns a document whose decoded
configuration is `{b: {x: 9}}`: it is not record-equal to the claimed
`{a: 1, b: {x: 9}}`, and the key `a` is absent rather than preserved. -/
theorem c1_counterexample :
    decodedConfig docAB =
      some [("a", .prim (.num 1)),
        ("b", .vmap [("x", .prim (.num 1)), ("y", .prim (.num 2))])] ∧
    addOrUpdateProperties st0 docAB cfgB9 true =
      .ok (SourceFile.mk [.exportDefault (.call "defineConfig"
        [.obj [("b", .obj [("x", .num 9)])]])]) ∧
    decodedConfig (SourceFile.mk [.exportDefault (.call "defineConfig"
        [.obj [("b", .obj [("x", .num 9)])]])]) =
      some [("b", .vmap [("x", .prim (.num 9))])] ∧
    mmapEquiv 100 [("b", .vmap [("x", .prim (.num 9))])]
      [("a", .prim (.num 1)), ("b", .vmap [("x", .prim (.num 9))])] = false ∧
    mmGet [("b", .vmap [("x", .prim (.num 9))])] "a" = none :=
  ⟨rfl, rfl, rfl, rfl, rfl⟩

theorem decodedConfig_of_recognized (stmts : List Stmt) (ps : List (String × Expr))
    (h : recognizedExportProps stmts = some ps) :
    decodedConfig (SourceFile.mk stmts) =
      (match buildMetadataFromConfig ps [] [] "" with
       | .ok m => some m
       | .error _ => none) := by
  unfold decodedConfig
  rw [show (SourceFile.mk stmts).statements = stmts from rfl, h]

/-- Claim C1 as amended: for every source document whose recognized export's
decoded configuration is `{a: 1, b: {x: 1, y: 2}}` (written as that object
literal, in any surrounding context of non-export statements and with any
callee name), calling `addOrUpdateProperties` with `{b: {x: 9}}` and
`overwrite=true` returns source whose recognized export's decoded
configuration is exactly `{b: {x: 9}}`: with `overwrite=true` the existing
configuration is never decoded and the new configuration replaces it
wholesale, so the existing key `a`, absent from the new input, is dropped
rather than preserved. -/
theorem c1_theorem (st : TransformerState) (pre post : List Stmt)
    (callee : String)
    (hpre : ∀ s ∈ pre, s.isExportAssignment = false)
    (hpost : ∀ s ∈ post, s.isExportAssignment = false) :
    addOrUpdateProperties st
      (SourceFile.mk (pre ++ .exportDefault (.call callee [.obj psAB]) :: post))
      cfgB9 true =
      .ok (SourceFile.mk (pre ++ .exportDefault (.call callee
        [.obj [("b", .obj [("x", .num 9)])]]) :: post)) ∧
    decodedConfig (SourceFile.mk (pre ++ .exportDefault (.call callee
        [.obj [("b", .obj [("x", .num 9)])]]) :: post)) =
      some [("b", .vmap [("x", .prim (.num 9))])] := by
  constructor
  · have hsingle : transformStmts (.upsertChange true) []
        (.exportDefault (.call callee [.obj psAB]) :: post)
        [("b", DynVal.vmap [("x", DynVal.prim (.num 9))])] =
        .ok (.exportDefault (.call callee
          [.obj [("b", .obj [("x", .num 9)])]]) :: post) := by
      have hstep : transformStmts (.upsertChange true) []
          (.exportDefault (.call callee [.obj psAB]) :: post)
          [("b", DynVal.vmap [("x", DynVal.prim (.num 9))])] =
          (transformStmts (.upsertChange true) [] post
            [("b", DynVal.vmap [("x", DynVal.prim (.num 9))])] >>=
            fun r => Except.ok (Stmt.exportDefault (.call callee
              [.obj [("b", .obj [("x", .num 9)])]]) :: r)) := rfl
      rw [hstep, transformStmts_exportFree _ _ post _ hpost]
      rfl
    have happ := transformStmts_append_exportFree (.upsertChange true) [] pre
      (.exportDefault (.call callee [.obj psAB]) :: post)
      [("b", DynVal.vmap [("x", DynVal.prim (.num 9))])] hpre
    have hentry : addOrUpdateProperties st
        (SourceFile.mk (pre ++ .exportDefault (.call callee [.obj psAB]) :: post))
        cfgB9 true =
        (transformStmts (.upsertChange true) []
          (pre ++ .exportDefault (.call callee [.obj psAB]) :: post)
          [("b", DynVal.vmap [("x", DynVal.prim (.num 9))])] >>=
          fun r => Except.ok (SourceFile.mk r)) := rfl
    rw [hentry, happ, hsingle]
    rfl
  · have hrec : recognizedExportProps (pre ++ .exportDefault (.call callee
        [.obj [("b", .obj [("x", .num 9)])]]) :: post) =
        some [("b", .obj [("x", .num 9)])] :=
      (recognizedExportProps_append pre _ hpre).trans rfl
    exact (decodedConfig_of_recognized _ _ hrec).trans rfl

/-- Claim C1 witness: the amended claim at the concrete document
`{a: 1, b: {x: 1, y: 2}}` preceded by one non-export statement. -/
theorem c1_witness :
    addOrUpdateProperties st0
      (SourceFile.mk [Stmt.other "leading statements",
        .exportDefault (.call "defineConfig" [.obj psAB])]) cfgB9 true =
      .ok (SourceFile.mk [Stmt.other "leading statements",
        .exportDefault (.call "defineConfig"
          [.obj [("b", .obj [("x", .num 9)])]])]) ∧
    decodedConfig (SourceFile.mk [Stmt.other "leading statements",
        .exportDefault (.call "defineConfig"
          [.obj [("b", .obj [("x", .num 9)])]])]) =
      some [("b", .vmap [("x", .prim (.num 9))])] :=
  c1_theorem st0 [Stmt.other "leading statements"] [] "defineConfig"
    (by intro s hs; rw [List.mem_singleton] at hs; subst hs; rfl)
    (by intro s hs; exact absurd hs (List.not_mem_nil s))

/-- Claim C3 (confirmed): for every source document whose recognized export's
decoded configuration is `{a: 1, b: {x: 1, y: 2}}` (written as that object
literal, in any surrounding context of non-export statements and with any
callee name), calling `addOrUpdateProperties` with `{b: {x: 9}}` and
`overwrite=false` returns source whose recognized export's decoded
configuration is record-equal to `{a: 1, b: {x: 9, y: 2}}`: record-shaped
values present on both sides are merged child-by-child, the new child `x: 9`
wins on conflict, and the existing-only child `y` and the sibling `a` are
preserved. -/
theorem c3_theorem (st : TransformerState) (pre post : List Stmt)
    (callee : String)
    (hpre : ∀ s ∈ pre, s.isExportAssignment = false)
    (hpost : ∀ s ∈ post, s.isExportAssignment = false) :
    addOrUpdateProperties st
      (SourceFile.mk (pre ++ .exportDefault (.call callee [.obj psAB]) :: post))
      cfgB9 false =
      .ok (SourceFile.mk (pre ++ .exportDefault (.call callee
        [.obj [("b", .obj [("x", .num 9), ("y", .num 2)]), ("a", .num 1)]]) :: post)) ∧
    decodedConfig (SourceFile.mk (pre ++ .exportDefault (.call callee
        [.obj [("b", .obj [("x", .num 9), ("y", .num 2)]), ("a", .num 1)]]) :: post)) =
      some [("b", .vmap [("x", .prim (.num 9)), ("y", .prim (.num 2))]),
        ("a", .prim (.num 1))] ∧
    mmapEquiv 100
      [("b", .vmap [("x", .prim (.num 9)), ("y", .prim (.num 2))]),
        ("a", .prim (.num 1))]
      [("a", .prim (.num 1)),
        ("b", .vmap [("x", .prim (.num 9)), ("y", .prim (.num 2))])] = true := by
  refine ⟨?_, ?_, rfl⟩
  · have hsingle : transformStmts (.upsertChange false) []
        (.exportDefault (.call callee [.obj psAB]) :: post)
        [("b", DynVal.vmap [("x", DynVal.prim (.num 9))])] =
        .ok (.exportDefault (.call callee
          [.obj [("b", .obj [("x", .num 9), ("y", .num 2)]), ("a", .num 1)]]) :: post) := by
      have hstep : transformStmts (.upsertChange false) []
          (.exportDefault (.call callee [.obj psAB]) :: post)
          [("b", DynVal.vmap [("x", DynVal.prim (.num 9))])] =
          (transformStmts (.upsertChange false) [] post
            [("b", DynVal.vmap [("x", DynVal.prim (.num 9)), ("y", DynVal.prim (.num 2))]),
              ("a", DynVal.prim (.num 1))] >>=
            fun r => Except.ok (Stmt.exportDefault (.call callee
              [.obj [("b", .obj [("x", .num 9), ("y", .num 2)]), ("a", .num 1)]]) :: r)) := rfl
      rw [hstep, transformStmts_exportFree _ _ post _ hpost]
      rfl
    have happ := transformStmts_append_exportFree (.upsertChange false) [] pre
      (.exportDefault (.call callee [.obj psAB]) :: post)
      [("b", DynVal.vmap [("x", DynVal.prim (.num 9))])] hpre
    have hentry : addOrUpdateProperties st
        (SourceFile.mk (pre ++ .exportDefault (.call callee [.obj psAB]) :: post))
        cfgB9 false =
        (transformStmts (.upsertChange false) []
          (pre ++ .exportDefault (.call callee [.obj psAB]) :: post)
          [("b", DynVal.vmap [("x", DynVal.prim (.num 9))])] >>=
          fun r => Except.ok (SourceFile.mk r)) := rfl
    rw [hentry, happ, hsingle]
    rfl
  · have hrec : recognizedExportProps (pre ++ .exportDefault (.call callee
        [.obj [("b", .obj [("x", .num 9), ("y", .num 2)]), ("a", .num 1)]]) :: post) =
        some [("b", .obj [("x", .num 9), ("y", .num 2)]), ("a", .num 1)] :=
      (recognizedExportProps_append pre _ hpre).trans rfl
    exact (decodedConfig_of_recognized _ _ hrec).trans rfl

/-- Claim C3 witness: the merge at the concrete document
`{a: 1, b: {x: 1, y: 2}}` preceded by one non-export statement. -/
theorem c3_witness :
    addOrUpdateProperties st0
      (SourceFile.mk [Stmt.other "leading statements",
        .exportDefault (.call "defineConfig" [.obj psAB])]) cfgB9 false =
      .ok (SourceFile.mk [Stmt.other "leading statements",
        .exportDefault (.call "defineConfig"
          [.obj [("b", .obj [("x", .num 9), ("y", .num 2)]), ("a", .num 1)]])]) ∧
    decodedConfig (SourceFile.mk [Stmt.other "leading statements",
        .exportDefault (.call "defineConfig"
          [.obj [("b", .obj [("x", .num 9), ("y", .num 2)]), ("a", .num 1)]])]) =
      some [("b", .vmap [("x", .prim (.num 9)), ("y", .prim (.num 2))]),
        ("a", .prim (.num 1))] ∧
    mmapEquiv 100
      [("b", .vmap [("x", .prim (.num 9)), ("y", .prim (.num 2))]),
        ("a", .prim (.num 1))]
      [("a", .prim (.num 1)),
        ("b", .vmap [("x", .prim (.num 9)), ("y", .prim (.num 2))])] = true :=
  c3_theorem st0 [Stmt.other "leading statements"] [] "defineConfig"
    (by intro s hs; rw [List.mem_singleton] at hs; subst hs; rfl)
    (by intro s hs; exact absurd hs (List.not_mem_nil s))

/-- Claim C5 (confirmed): for every source document whose recognized export's
decoded configuration is `{a: 1, b: {x: 1, y: 2}}` (written as that object
literal, in any surrounding context of non-export statements and with any
callee name), `removeProperties` with paths `["b.x"]` returns source whose
decoded configuration is `{a: 1, b: {y: 2}}`: exactly the addressed leaf is
dropped and every other entry, including the sibling `y` and the top-level
`a`, is copied. -/
theorem c5_theorem (st : TransformerState) (pre post : List Stmt)
    (callee : String)
    (hpre : ∀ s ∈ pre, s.isExportAssignment = false)
    (hpost : ∀ s ∈ post, s.isExportAssignment = false) :
    removeProperties st
      (SourceFile.mk (pre ++ .exportDefault (.call callee [.obj psAB]) :: post))
      ["b.x"] =
      .ok (SourceFile.mk (pre ++ .exportDefault (.call callee
        [.obj [("a", .num 1), ("b", .obj [("y", .num 2)])]]) :: post)) ∧
    decodedConfig (SourceFile.mk (pre ++ .exportDefault (.call callee
        [.obj [("a", .num 1), ("b", .obj [("y", .num 2)])]]) :: post)) =
      some [("a", .prim (.num 1)), ("b", .vmap [("y", .prim (.num 2))])] := by
  constructor
  · have hsingle : transformStmts .deleteChange ["b.x"]
        (.exportDefault (.call callee [.obj psAB]) :: post) [] =
        .ok (.exportDefault (.call callee
          [.obj [("a", .num 1), ("b", .obj [("y", .num 2)])]]) :: post) := by
      have hstep : transformStmts .deleteChange ["b.x"]
          (.exportDefault (.call callee [.obj psAB]) :: post) [] =
          (transformStmts .deleteChange ["b.x"] post
            [("a", DynVal.prim (.num 1)), ("b", DynVal.vmap [("y", DynVal.prim (.num 2))])] >>=
            fun r => Except.ok (Stmt.exportDefault (.call callee
              [.obj [("a", .num 1), ("b", .obj [("y", .num 2)])]]) :: r)) := rfl
      rw [hstep, transformStmts_exportFree _ _ post _ hpost]
      rfl
    have happ := transformStmts_append_exportFree .deleteChange ["b.x"] pre
      (.exportDefault (.call callee [.obj psAB]) :: post) [] hpre
    have hentry : removeProperties st
        (SourceFile.mk (pre ++ .exportDefault (.call callee [.obj psAB]) :: post))
        ["b.x"] =
        (transformStmts .deleteChange ["b.x"]
          (pre ++ .exportDefault (.call callee [.obj psAB]) :: post) [] >>=
          fun r => Except.ok (SourceFile.mk r)) := rfl
    rw [hentry, happ, hsingle]
    rfl
  · have hrec : recognizedExportProps (pre ++ .exportDefault (.call callee
        [.obj [("a", .num 1), ("b", .obj [("y", .num 2)])]]) :: post) =
        some [("a", .num 1), ("b", .obj [("y", .num 2)])] :=
      (recognizedExportProps_append pre _ hpre).trans rfl
    exact (decodedConfig_of_recognized _ _ hrec).trans rfl

/-- Claim C5 witness: the deletion at the concrete document
`{a: 1, b: {x: 1, y: 2}}` preceded by one non-export statement. -/
theorem c5_witness :
    removeProperties st0
      (SourceFile.mk [Stmt.other "leading statements",
        .exportDefault (.call "defineConfig" [.obj psAB])]) ["b.x"] =
      .ok (SourceFile.mk [Stmt.other "leading statements",
        .exportDefault (.call "defineConfig"
          [.obj [("a", .num 1), ("b", .obj [("y", .num 2)])]])]) ∧
    decodedConfig (SourceFile.mk [Stmt.other "leading statements",
        .exportDefault (.call "defineConfig"
          [.obj [("a", .num 1), ("b", .obj [("y", .num 2)])]])]) =
      some [("a", .prim (.num 1)), ("b", .vmap [("y", .prim (.num 2))])] :=
  c5_theorem st0 [Stmt.other "leading statements"] [] "defineConfig"
    (by intro s hs; rw [List.mem_singleton] at hs; subst hs; rfl)
    (by intro s hs; exact absurd hs (List.not_mem_nil s))

/-- Claim C6 (confirmed): for every source document whose recognized export's
decoded configuration is `{b: {x: 1}}` (written as that object literal, in any
surrounding context of non-export statements and with any callee name),
`removeProperties` with paths `["b.x"]` returns source whose decoded
configuration is `{b: {}}` and not `{}`: removing every child of an object
leaves an empty object literal in place (the key `b` maps to the empty record
and the configuration is not record-equal to the empty record). -/
theorem c6_theorem (st : TransformerState) (pre post : List Stmt)
    (callee : String)
    (hpre : ∀ s ∈ pre, s.isExportAssignment = false)
    (hpost : ∀ s ∈ post, s.isExportAssignment = false) :
    removeProperties st
      (SourceFile.mk (pre ++ .exportDefault (.call callee
        [.obj [("b", .obj [("x", .num 1)])]]) :: post)) ["b.x"] =
      .ok (SourceFile.mk (pre ++ .exportDefault (.call callee
        [.obj [("b", .obj [])]]) :: post)) ∧
    decodedConfig (SourceFile.mk (pre ++ .exportDefault (.call callee
        [.obj [("b", .obj [])]]) :: post)) =
      some [("b", .vmap [])] ∧
    mmGet [("b", DynVal.vmap [])] "b" = some (.vmap []) ∧
    mmapEquiv 100 [("b", DynVal.vmap [])] [] = false := by
  refine ⟨?_, ?_, rfl, rfl⟩
  · have hsingle : transformStmts .deleteChange ["b.x"]
        (.exportDefault (.call callee [.obj [("b", .obj [("x", .num 1)])]]) :: post) [] =
        .ok (.exportDefault (.call callee [.obj [("b", .obj [])]]) :: post) := by
      have hstep : transformStmts .deleteChange ["b.x"]
          (.exportDefault (.call callee [.obj [("b", .obj [("x", .num 1)])]]) :: post) [] =
          (transformStmts .deleteChange ["b.x"] post [("b", DynVal.vmap [])] >>=
            fun r => Except.ok (Stmt.exportDefault (.call callee
              [.obj [("b", .obj [])]]) :: r)) := rfl
      rw [hstep, transformStmts_exportFree _ _ post _ hpost]
      rfl
    have happ := transformStmts_append_exportFree .deleteChange ["b.x"] pre
      (.exportDefault (.call callee [.obj [("b", .obj [("x", .num 1)])]]) :: post) [] hpre
    have hentry : removeProperties st
        (SourceFile.mk (pre ++ .exportDefault (.call callee
          [.obj [("b", .obj [("x", .num 1)])]]) :: post)) ["b.x"] =
        (transformStmts .deleteChange ["b.x"]
          (pre ++ .exportDefault (.call callee
            [.obj [("b", .obj [("x", .num 1)])]]) :: post) [] >>=
          fun r => Except.ok (SourceFile.mk r)) := rfl
    rw [hentry, happ, hsingle]
    rfl
  · have hrec : recognizedExportProps (pre ++ .exportDefault (.call callee
        [.obj [("b", .obj [])]]) :: post) =
        some [("b", .obj [])] :=
      (recognizedExportProps_append pre _ hpre).trans rfl
    exact (decodedConfig_of_recognized _ _ hrec).trans rfl

/-- Claim C6 witness: the deletion at the concrete document `{b: {x: 1}}`
preceded by one non-export statement. -/
theorem c6_witness :
    removeProperties st0
      (SourceFile.mk [Stmt.other "leading statements",
        .exportDefault (.call "defineConfig" [.obj [("b", .obj [("x", .num 1)])]])])
      ["b.x"] =
      .ok (SourceFile.mk [Stmt.other "leading statements",
        .exportDefault (.call "defineConfig" [.obj [("b", .obj [])]])]) ∧
    decodedConfig (SourceFile.mk [Stmt.other "leading statements",
        .exportDefault (.call "defineConfig" [.obj [("b", .obj [])]])]) =
      some [("b", .vmap [])] ∧
    mmGet [("b", DynVal.vmap [])] "b" = some (.vmap []) ∧
    mmapEquiv 100 [("b", DynVal.vmap [])] [] = false :=
  c6_theorem st0 [Stmt.other "leading statements"] [] "defineConfig"
    (by intro s hs; rw [List.mem_singleton] at hs; subst hs; rfl)
    (by intro s hs; exact absurd hs (List.not_mem_nil s))

/-- Claim C2 as amended: for every source document containing no export
assignment at all, neither entry point fails and neither aborts: there is no
`NoRecognizedExport` error in the code.  `removeProperties` returns the
document unchanged (up to reprinting), and whenever `addOrUpdateProperties`
returns a document (it can fail only while encoding the new configuration
itself, before the document is looked at), that document is the input
unchanged. -/
theorem c2_theorem (st : TransformerState) (sf : SourceFile)
    (toRemove : List String)
    (h : ∀ s ∈ sf.statements, s.isExportAssignment = false) :
    removeProperties st sf toRemove = .ok sf ∧
    ∀ (cfg : List (String × DynVal)) (ow : Bool) (out : SourceFile),
      addOrUpdateProperties st sf cfg ow = .ok out → out = sf := by
  constructor
  · have hentry : removeProperties st sf toRemove =
        (transformStmts .deleteChange toRemove sf.statements [] >>=
          fun r => Except.ok (SourceFile.mk r)) := rfl
    rw [hentry, transformStmts_exportFree _ _ _ _ h]
    rfl
  · intro cfg ow out hadd
    have hentry : addOrUpdateProperties st sf cfg ow =
        (createPropertyAssignments cfg >>= fun newProps =>
          buildMetadataFromConfig newProps [] [] "" >>= fun seeded =>
          transformStmts (.upsertChange ow) [] sf.statements seeded >>= fun stmts =>
          Except.ok (SourceFile.mk stmts)) := rfl
    rw [hentry, except_bind_ok] at hadd
    obtain ⟨P, hP, hadd⟩ := hadd
    rw [except_bind_ok] at hadd
    obtain ⟨seeded, hseed, hadd⟩ := hadd
    rw [except_bind_ok] at hadd
    obtain ⟨stmts, hT, hout⟩ := hadd
    rw [transformStmts_exportFree _ _ _ _ h] at hT
    have hst : sf.statements = stmts := by simpa using hT
    have hout' : SourceFile.mk stmts = out := by simpa using hout
    rw [← hout', ← hst]

/-- Claim C2 witness: the amended claim at the concrete document consisting of
one non-export statement. -/
theorem c2_witness :
    removeProperties st0 (SourceFile.mk [Stmt.other "leading statements"])
      ["baseUrl"] = .ok (SourceFile.mk [Stmt.other "leading statements"]) ∧
    ∀ (cfg : List (String × DynVal)) (ow : Bool) (out : SourceFile),
      addOrUpdateProperties st0 (SourceFile.mk [Stmt.other "leading statements"])
        cfg ow = .ok out →
      out = SourceFile.mk [Stmt.other "leading statements"] :=
  c2_theorem st0 (SourceFile.mk [Stmt.other "leading statements"]) ["baseUrl"]
    (by intro s hs; rw [List.mem_singleton] at hs; subst hs; rfl)

/-- Claim C9 (confirmed): overwrite upsert is idempotent.  For every source
document `S` and new configuration `C`, if `addOrUpdateProperties S C true`
succeeds with output `T`, then `addOrUpdateProperties T C true` succeeds and
returns `T` itself — in particular the recognized export's decoded
configuration of the double application equals that of the single
application. -/
theorem c9_theorem (st1 st2 : TransformerState) (sf : SourceFile)
    (cfg : List (String × DynVal)) (T : SourceFile)
    (h : addOrUpdateProperties st1 sf cfg true = .ok T) :
    addOrUpdateProperties st2 T cfg true = .ok T := by
  have hd : ∀ (s : TransformerState) (x : SourceFile),
      addOrUpdateProperties s x cfg true =
        (createPropertyAssignments cfg >>= fun newProps =>
          buildMetadataFromConfig newProps [] [] "" >>= fun seeded =>
          transformStmts (.upsertChange true) [] x.statements seeded >>=
            fun stmts => Except.ok (SourceFile.mk stmts)) := fun _ _ => rfl
  rw [hd, except_bind_ok] at h
  obtain ⟨P, hP, h⟩ := h
  rw [except_bind_ok] at h
  obtain ⟨seeded, hseed, h⟩ := h
  rw [except_bind_ok] at h
  obtain ⟨stmts, hT, hout⟩ := h
  have hTmk : SourceFile.mk stmts = T := by simpa using hout
  have hstable := transformStmts_overwrite_stable [] seeded _ _ hT
  rw [hd st2 T, except_bind_ok]
  refine ⟨P, hP, ?_⟩
  rw [except_bind_ok]
  refine ⟨seeded, hseed, ?_⟩
  rw [except_bind_ok]
  refine ⟨stmts, ?_, ?_⟩
  · have hTs : T.statements = stmts := by rw [← hTmk]
    rw [hTs]
    exact hstable
  · rw [hTmk]

/-- Claim C9 witness: the idempotence at a concrete document and
configuration. -/
theorem c9_witness :
    addOrUpdateProperties st0
      (SourceFile.mk [.exportDefault (.call "defineConfig" [.obj [("a", .num 1)]])])
      [("b", DynVal.prim (.num 2))] true =
      .ok (SourceFile.mk [.exportDefault (.call "defineConfig" [.obj [("b", .num 2)]])]) ∧
    addOrUpdateProperties st0
      (SourceFile.mk [.exportDefault (.call "defineConfig" [.obj [("b", .num 2)]])])
      [("b", DynVal.prim (.num 2))] true =
      .ok (SourceFile.mk [.exportDefault (.call "defineConfig" [.obj [("b", .num 2)]])]) :=
  ⟨rfl, c9_theorem st0 st0
    (SourceFile.mk [.exportDefault (.call "defineConfig" [.obj [("a", .num 1)]])])
    [("b", DynVal.prim (.num 2))]
    (SourceFile.mk [.exportDefault (.call "defineConfig" [.obj [("b", .num 2)]])]) rfl⟩
